import Mathlib

/-!
Shallow embedding of the trading engine in `trading_bot.py`.

Numbers are modelled as rationals (`ℚ`): the Python code converts every
amount through `Decimal(value)` before rounding, and all arithmetic the
claims speak about is exact decimal arithmetic, which `ℚ` captures.
JSON dictionaries (the balance file) and the price table are modelled as
association lists, with Python-dict update semantics (replace in place,
append new keys at the end).  Python exceptions are modelled by an
explicit error type: `ValueError msg` mirrors `raise ValueError(msg)`,
`keyError k` mirrors the `KeyError` of a raw `b[k]` access on a missing
key, and `zeroDivisionError` mirrors the `ZeroDivisionError` Python
raises on float division by zero.
-/

/-- ASCII upper-casing of a single character, the behaviour of Python's
`str.upper` on the ASCII symbol strings this program uses. -/
def upChar (c : Char) : Char :=
  if 'a' ≤ c ∧ c ≤ 'z' then Char.ofNat (c.toNat - 32) else c

/-- Model of Python's `s.upper()` (over ASCII characters). -/
def pyUpper (s : String) : String :=
  String.mk (s.data.map upChar)

/-- Fueled worker for `pyReplace`: replaces each left-most, non-overlapping
occurrence of `pat` by `rep`, scanning left to right, exactly as Python's
`str.replace` does for a non-empty pattern.  The fuel is the length of the
scanned list, which bounds the number of steps. -/
def replaceAux (pat rep : List Char) : ℕ → List Char → List Char
  | _, [] => []
  | 0, l => l
  | fuel + 1, c :: rest =>
    if pat ≠ [] ∧ (c :: rest).take pat.length = pat then
      rep ++ replaceAux pat rep fuel ((c :: rest).drop pat.length)
    else
      c :: replaceAux pat rep fuel rest

/-- Model of Python's `s.replace(pat, rep)` for a non-empty pattern
(the program only ever calls it as `symbol.replace("USDT", "")`). -/
def pyReplace (s pat rep : String) : String :=
  String.mk (replaceAux pat.data rep.data s.data.length s.data)

/-- The balance file's JSON object: asset symbol → held quantity. -/
abbrev Balance := List (String × ℚ)

/-- The price file's JSON array of `{symbol, price}` records. -/
abbrev PriceTable := List (String × ℚ)

/-- Python dict lookup `b.get(k)` on the association list. -/
def lookupBal : Balance → String → Option ℚ
  | [], _ => none
  | (k, v) :: rest, key => if k = key then some v else lookupBal rest key

/-- Python dict lookup with default, `b.get(k, d)`. -/
def getD (b : Balance) (key : String) (d : ℚ) : ℚ :=
  (lookupBal b key).getD d

/-- Python dict assignment `b[k] = v`: replaces the value in place when the
key exists, appends the new key at the end otherwise. -/
def setKey : Balance → String → ℚ → Balance
  | [], key, v => [(key, v)]
  | (k, w) :: rest, key, v =>
    if k = key then (key, v) :: rest else (k, w) :: setKey rest key v

/-- Exceptions raised by the embedded code paths. -/
inductive Err where
  | valueError (msg : String)
  | keyError (key : String)
  | zeroDivisionError
deriving DecidableEq

/-- The dictionary returned by a filled mock order. -/
structure OrderResult where
  status : String
  side : String
  symbol : String
  price : ℚ
  qty : ℚ
deriving DecidableEq

/-- `binance.enums.SIDE_BUY`, or the module-level fallback constant. -/
def SIDE_BUY : String := "BUY"

/-- `binance.enums.SIDE_SELL`, or the module-level fallback constant. -/
def SIDE_SELL : String := "SELL"

/-- Rounding toward zero to an integer, the effect of `decimal.ROUND_DOWN`. -/
def truncTowardZero (q : ℚ) : ℤ :=
  if 0 ≤ q then ⌊q⌋ else ⌈q⌉

/-- `round_dec(value, ndigits)`: quantize to `ndigits` fractional digits
with `ROUND_DOWN` (truncation toward zero). -/
def round_dec (value : ℚ) (ndigits : ℕ) : ℚ :=
  (truncTowardZero (value * 10 ^ ndigits) : ℚ) / 10 ^ ndigits

/-- `MockFuturesBot.get_price`: first entry of the price table whose symbol
matches case-insensitively, `None` otherwise. -/
def get_price (prices : PriceTable) (symbol : String) : Option ℚ :=
  match prices with
  | [] => none
  | (s, p) :: rest =>
    if pyUpper s = pyUpper symbol then some p else get_price rest symbol

/-- `MockFuturesBot.get_balance`: the `"USDT"` entry, defaulting to `0.0`. -/
def get_balance (bal : Balance) : ℚ :=
  getD bal "USDT" 0

/-- `MockFuturesBot.futures_mark_price`: the mark price for a symbol, drawn
from the price table.  (The Python code stringifies the price and the
caller parses it back with `float`; for an actual price this round-trip is
the identity, and for a missing symbol the string is `"None"`, which makes
the caller's `float` call raise — modelled at the call site.) -/
def futures_mark_price (prices : PriceTable) (symbol : String) : Option ℚ :=
  get_price prices symbol

/-- `MockFuturesBot.place_market_order(symbol, side, quantity)`.

The first component of the result is the content of the balance file after
the call (unchanged whenever nothing was written); the second is the
returned value: `Except.error e` when an exception is raised,
`Except.ok (some r)` for a filled order, and `Except.ok none` when the
function falls through both side branches and returns `None`.
Reads and writes follow the Python statement order: in the BUY branch the
base-asset balance is read after the `"USDT"` entry was updated, and in the
SELL branch the `"USDT"` entry is read after the base-asset entry was
updated. -/
def place_market_order (prices : PriceTable) (bal : Balance) (symbol side : String)
    (quantity : ℚ) : Balance × Except Err (Option OrderResult) :=
  let symbol_base := pyReplace symbol "USDT" ""
  match get_price prices symbol with
  | none => (bal, Except.error (Err.valueError "Symbol not found in mock prices"))
  | some price =>
    if side = SIDE_BUY then
      match lookupBal bal "USDT" with
      | none => (bal, Except.error (Err.keyError "USDT"))
      | some usdt =>
        let cost := quantity * price
        if usdt < cost then
          (bal, Except.error (Err.valueError "Not enough USDT"))
        else
          let b1 := setKey bal "USDT" (round_dec (usdt - cost) 6)
          let b2 := setKey b1 symbol_base (round_dec (getD b1 symbol_base 0 + quantity) 8)
          (b2, Except.ok (some ⟨"FILLED", "BUY", symbol, price, quantity⟩))
    else if side = SIDE_SELL then
      if getD bal symbol_base 0 < quantity then
        (bal, Except.error (Err.valueError ("Not enough " ++ symbol_base)))
      else
        let proceeds := quantity * price
        let b1 := setKey bal symbol_base (round_dec (getD bal symbol_base 0 - quantity) 8)
        match lookupBal b1 "USDT" with
        | none => (bal, Except.error (Err.keyError "USDT"))
        | some usdt =>
          (setKey b1 "USDT" (round_dec (usdt + proceeds) 6),
           Except.ok (some ⟨"FILLED", "SELL", symbol, price, quantity⟩))
    else
      (bal, Except.ok none)

/-- `calculate_position_size(bot, symbol, risk_pct, stop_loss_pct, leverage)`
against the mock client.  `bot.get_balance()` never returns `None` in mock
mode, so the `balance is None` guard never fires.  When the symbol is
unknown, `futures_mark_price` yields the string `"None"` and the `float`
conversion raises a `ValueError`.  When `stop_distance` is zero, the
division `(risk_amount * leverage) / stop_distance` raises Python's
`ZeroDivisionError`. -/
def calculate_position_size (prices : PriceTable) (bal : Balance) (symbol : String)
    (risk_pct stop_loss_pct leverage : ℚ) : Except Err (ℚ × ℚ) :=
  let balance := get_balance bal
  let risk_amount := balance * (risk_pct / 100)
  match futures_mark_price prices symbol with
  | none => Except.error (Err.valueError "could not convert string to float")
  | some current_price =>
    let stop_distance := current_price * stop_loss_pct
    if stop_distance = 0 then Except.error Err.zeroDivisionError
    else Except.ok (round_dec (risk_amount * leverage / stop_distance) 6, current_price)

/-- The two client variants the factory can build. -/
inductive BotClient where
  | mock
  | real (api_key api_secret : String) (testnet : Bool)
deriving DecidableEq

/-- Python truthiness of an optional string credential: `None` and the
empty string are falsy. -/
def truthyStr : Option String → Bool
  | none => false
  | some s => !s.isEmpty

/-- `build_bot(api_key, api_secret, use_real, testnet)`; `binance_available`
is the module-level `BINANCE_AVAILABLE` flag set by the import probe. -/
def build_bot (api_key api_secret : Option String) (use_real testnet : Bool)
    (binance_available : Bool) : BotClient :=
  if use_real && binance_available && truthyStr api_key && truthyStr api_secret then
    BotClient.real (api_key.getD "") (api_secret.getD "") testnet
  else
    BotClient.mock

/-! ### Helper lemmas about the embedded dictionary and rounding operations -/

theorem lookupBal_setKey_self (b : Balance) (k : String) (v : ℚ) :
    lookupBal (setKey b k v) k = some v := by
  induction b with
  | nil => simp [setKey, lookupBal]
  | cons kv rest ih =>
    obtain ⟨k', w⟩ := kv
    by_cases h : k' = k
    · simp [setKey, h, lookupBal]
    · simp [setKey, h, lookupBal, ih]

theorem lookupBal_setKey_ne (b : Balance) (k k' : String) (v : ℚ) (h : k ≠ k') :
    lookupBal (setKey b k v) k' = lookupBal b k' := by
  induction b with
  | nil => simp [setKey, lookupBal, h]
  | cons kv rest ih =>
    obtain ⟨k'', w⟩ := kv
    by_cases h2 : k'' = k
    · subst h2
      simp [setKey, lookupBal, h]
    · simp [setKey, h2, lookupBal, ih]

theorem mem_setKey (b : Balance) (k : String) (v : ℚ) (x : String × ℚ) :
    x ∈ setKey b k v → x = (k, v) ∨ x ∈ b := by
  induction b with
  | nil =>
    intro hx
    simp only [setKey, List.mem_singleton] at hx
    exact Or.inl hx
  | cons kv rest ih =>
    obtain ⟨k', w⟩ := kv
    intro hx
    simp only [setKey] at hx
    by_cases h : k' = k
    · rw [if_pos h] at hx
      rcases List.mem_cons.mp hx with h1 | h2
      · exact Or.inl h1
      · exact Or.inr (List.mem_cons_of_mem _ h2)
    · rw [if_neg h] at hx
      rcases List.mem_cons.mp hx with h1 | h2
      · exact Or.inr (h1 ▸ List.mem_cons_self _ _)
      · rcases ih h2 with h3 | h4
        · exact Or.inl h3
        · exact Or.inr (List.mem_cons_of_mem _ h4)

theorem lookupBal_mem (b : Balance) (k : String) (v : ℚ) :
    lookupBal b k = some v → (k, v) ∈ b := by
  induction b with
  | nil => simp [lookupBal]
  | cons kv rest ih =>
    obtain ⟨k', w⟩ := kv
    intro hx
    simp only [lookupBal] at hx
    by_cases h : k' = k
    · rw [if_pos h] at hx
      subst h
      obtain rfl : w = v := Option.some.inj hx
      exact List.mem_cons_self _ _
    · rw [if_neg h] at hx
      exact List.mem_cons_of_mem _ (ih hx)

theorem get_price_mem (ps : PriceTable) (s : String) (p : ℚ) :
    get_price ps s = some p → ∃ k, (k, p) ∈ ps := by
  induction ps with
  | nil => simp [get_price]
  | cons kv rest ih =>
    obtain ⟨k', w⟩ := kv
    by_cases h : pyUpper k' = pyUpper s
    · simp only [get_price, if_pos h, Option.some.injEq]
      rintro rfl
      exact ⟨k', List.mem_cons_self _ _⟩
    · simp only [get_price, if_neg h]
      intro hx
      obtain ⟨k, hk⟩ := ih hx
      exact ⟨k, List.mem_cons_of_mem _ hk⟩

theorem getD_nonneg (b : Balance) (k : String) (h : ∀ kv ∈ b, 0 ≤ kv.2) :
    0 ≤ getD b k 0 := by
  unfold getD
  cases hk : lookupBal b k with
  | none => simp
  | some v =>
    simpa using h _ (lookupBal_mem b k v hk)

theorem round_dec_eq_floor (x : ℚ) (n : ℕ) (hx : 0 ≤ x) :
    round_dec x n = (⌊x * 10 ^ n⌋ : ℚ) / 10 ^ n := by
  have h : (0:ℚ) ≤ x * 10 ^ n := mul_nonneg hx (by positivity)
  simp [round_dec, truncTowardZero, h]

theorem round_dec_nonneg (x : ℚ) (n : ℕ) (hx : 0 ≤ x) : 0 ≤ round_dec x n := by
  rw [round_dec_eq_floor x n hx]
  apply div_nonneg _ (by positivity)
  exact_mod_cast Int.floor_nonneg.mpr (mul_nonneg hx (by positivity))

theorem round_dec_le (x : ℚ) (n : ℕ) (hx : 0 ≤ x) : round_dec x n ≤ x := by
  rw [round_dec_eq_floor x n hx]
  rw [div_le_iff₀ (by positivity)]
  exact Int.floor_le _

/-! ### Claim theorems -/

/-- C1: for every BUY order on a symbol present in the price table with
quantity `q` and current price `p`, when the pre-trade USDT balance `u`
satisfies `q * p ≤ u`, `place_market_order` succeeds: it returns an
OrderResult with status `"FILLED"`, side BUY, the symbol, fill price `p`
and quantity `q`, the persisted quote balance becomes `u - q * p`
truncated down to 6 fractional digits, and the persisted base balance
becomes the pre-trade base balance plus `q` truncated down to
8 fractional digits. -/
theorem buy_success_spec (prices : PriceTable) (bal : Balance) (symbol : String)
    (q p u : ℚ)
    (hprice : get_price prices symbol = some p)
    (husdt : lookupBal bal "USDT" = some u)
    (hbase : pyReplace symbol "USDT" "" ≠ "USDT")
    (hfunds : q * p ≤ u) :
    (place_market_order prices bal symbol SIDE_BUY q).2
        = Except.ok (some ⟨"FILLED", "BUY", symbol, p, q⟩) ∧
    lookupBal (place_market_order prices bal symbol SIDE_BUY q).1 "USDT"
        = some (round_dec (u - q * p) 6) ∧
    lookupBal (place_market_order prices bal symbol SIDE_BUY q).1 (pyReplace symbol "USDT" "")
        = some (round_dec (getD bal (pyReplace symbol "USDT" "") 0 + q) 8) := by
  have hnl : ¬ (u < q * p) := not_lt.mpr hfunds
  simp only [place_market_order, hprice, husdt, if_pos rfl, if_true, if_neg hnl]
  refine ⟨trivial, ?_, ?_⟩
  · rw [lookupBal_setKey_ne _ _ _ _ hbase, lookupBal_setKey_self]
  · rw [lookupBal_setKey_self]
    have hread : getD (setKey bal "USDT" (round_dec (u - q * p) 6)) (pyReplace symbol "USDT" "") 0
        = getD bal (pyReplace symbol "USDT" "") 0 := by
      unfold getD
      rw [lookupBal_setKey_ne _ _ _ _ (Ne.symm hbase)]
    rw [hread]

/-- Witness for `buy_success_spec` at a concrete input: buying 1 BTC at
price 5 from a balance of 10 USDT. -/
theorem buy_success_spec_witness :
    (place_market_order [("BTCUSDT", 5)] [("USDT", 10), ("BTC", 0)] "BTCUSDT" SIDE_BUY 1).2
        = Except.ok (some ⟨"FILLED", "BUY", "BTCUSDT", 5, 1⟩) ∧
    lookupBal (place_market_order [("BTCUSDT", 5)] [("USDT", 10), ("BTC", 0)]
        "BTCUSDT" SIDE_BUY 1).1 "USDT" = some (round_dec (10 - 1 * 5) 6) ∧
    lookupBal (place_market_order [("BTCUSDT", 5)] [("USDT", 10), ("BTC", 0)]
        "BTCUSDT" SIDE_BUY 1).1 (pyReplace "BTCUSDT" "USDT" "")
        = some (round_dec (getD [("USDT", 10), ("BTC", 0)] (pyReplace "BTCUSDT" "USDT" "") 0 + 1) 8) :=
  buy_success_spec [("BTCUSDT", 5)] [("USDT", 10), ("BTC", 0)] "BTCUSDT" 1 5 10
    rfl rfl (by decide) (by norm_num)

/-- C3: a BUY whose cost exceeds the available USDT balance fails with the
insufficient-funds error (`ValueError "Not enough USDT"`), and a SELL whose
quantity exceeds the available base-asset balance fails with
`ValueError "Not enough <base>"`; in both cases the persisted balance sheet
is exactly the input balance sheet. -/
theorem insufficient_funds_rejected (prices : PriceTable) (bal : Balance) (symbol : String)
    (q p : ℚ) (hp : get_price prices symbol = some p) :
    (∀ u, lookupBal bal "USDT" = some u → u < q * p →
      place_market_order prices bal symbol SIDE_BUY q
        = (bal, Except.error (Err.valueError "Not enough USDT"))) ∧
    (getD bal (pyReplace symbol "USDT" "") 0 < q →
      place_market_order prices bal symbol SIDE_SELL q
        = (bal, Except.error (Err.valueError ("Not enough " ++ pyReplace symbol "USDT" "")))) := by
  constructor
  · intro u hu hlt
    simp only [place_market_order, hp, hu, if_pos rfl, if_true, if_pos hlt]
  · intro hlt
    have hne : SIDE_SELL ≠ SIDE_BUY := by decide
    simp only [place_market_order, hp, if_neg hne, if_pos rfl, if_true, if_pos hlt]

/-- Witness for `insufficient_funds_rejected`: a BUY of 1 BTC at price 5
against 2 USDT, and a SELL of 1 BTC against 0 BTC. -/
theorem insufficient_funds_rejected_witness :
    place_market_order [("BTCUSDT", 5)] [("USDT", 2), ("BTC", 0)] "BTCUSDT" SIDE_BUY 1
      = ([("USDT", 2), ("BTC", 0)], Except.error (Err.valueError "Not enough USDT")) ∧
    place_market_order [("BTCUSDT", 5)] [("USDT", 2), ("BTC", 0)] "BTCUSDT" SIDE_SELL 1
      = ([("USDT", 2), ("BTC", 0)],
         Except.error (Err.valueError ("Not enough " ++ pyReplace "BTCUSDT" "USDT" ""))) := by
  have h := insufficient_funds_rejected [("BTCUSDT", 5)] [("USDT", 2), ("BTC", 0)] "BTCUSDT" 1 5 rfl
  refine ⟨h.1 2 rfl (by norm_num), h.2 ?_⟩
  have hb : pyReplace "BTCUSDT" "USDT" "" = "BTC" := by decide
  rw [hb]
  norm_num [getD, lookupBal]
  simp +decide

/-- C4 counterexample: a BUY with quantity `0` (a non-positive quantity) on
a known symbol with sufficient balance is not rejected with any
parameter-validation error: it runs the normal BUY branch and returns an
OrderResult with status `"FILLED"`, refuting the claim that no FILLED
result is returned for a non-positive quantity. -/
theorem zero_quantity_buy_fills :
    place_market_order [("BTCUSDT", 5)] [("USDT", 10), ("BTC", 0)] "BTCUSDT" SIDE_BUY 0
      = ([("USDT", 10), ("BTC", 0)],
         Except.ok (some ⟨"FILLED", "BUY", "BTCUSDT", 5, 0⟩)) := by
  have h1 : pyReplace "BTCUSDT" "USDT" "" = "BTC" := by decide
  simp only [place_market_order, get_price, h1, SIDE_BUY, lookupBal, setKey, getD]
  norm_num [round_dec, truncTowardZero, lookupBal, setKey, getD]
  simp +decide

/-- C4 amended: `place_market_order` performs no quantity validation.  A
call with a non-positive quantity flows through the ordinary side
branches; in particular a BUY of non-positive quantity on a known symbol
whose USDT balance covers the (non-positive) cost is filled and returns an
OrderResult with status `"FILLED"`. -/
theorem nonpositive_quantity_not_rejected (prices : PriceTable) (bal : Balance) (symbol : String)
    (q p u : ℚ) (hq0 : q ≤ 0)
    (hprice : get_price prices symbol = some p)
    (husdt : lookupBal bal "USDT" = some u)
    (hfunds : q * p ≤ u) :
    (place_market_order prices bal symbol SIDE_BUY q).2
      = Except.ok (some ⟨"FILLED", "BUY", symbol, p, q⟩) := by
  have hnl : ¬ (u < q * p) := not_lt.mpr hfunds
  simp only [place_market_order, hprice, husdt, if_pos rfl, if_true, if_neg hnl]

/-- Witness for `nonpositive_quantity_not_rejected` at quantity `0`. -/
theorem nonpositive_quantity_not_rejected_witness :
    (place_market_order [("BTCUSDT", 5)] [("USDT", 10), ("BTC", 0)] "BTCUSDT" SIDE_BUY 0).2
      = Except.ok (some ⟨"FILLED", "BUY", "BTCUSDT", 5, 0⟩) :=
  nonpositive_quantity_not_rejected [("BTCUSDT", 5)] [("USDT", 10), ("BTC", 0)] "BTCUSDT"
    0 5 10 le_rfl rfl rfl (by norm_num)

/-- C6: a call on a symbol absent from the price table fails with the
unknown-symbol error (`ValueError "Symbol not found in mock prices"`) and
leaves the persisted balance sheet unchanged, for every side and
quantity. -/
theorem unknown_symbol_rejected (prices : PriceTable) (bal : Balance) (symbol side : String)
    (q : ℚ) (h : get_price prices symbol = none) :
    place_market_order prices bal symbol side q
      = (bal, Except.error (Err.valueError "Symbol not found in mock prices")) := by
  simp only [place_market_order, h]

/-- Witness for `unknown_symbol_rejected`: the symbol `"XRPUSDT"` is not in
the price table. -/
theorem unknown_symbol_rejected_witness :
    place_market_order [("BTCUSDT", 5)] [("USDT", 10)] "XRPUSDT" "BUY" 1
      = ([("USDT", 10)], Except.error (Err.valueError "Symbol not found in mock prices")) :=
  unknown_symbol_rejected [("BTCUSDT", 5)] [("USDT", 10)] "XRPUSDT" "BUY" 1 (by decide)

/-- C8: whenever the real-mode flag is unset, or either credential is
absent, or the live capability is unavailable, the factory returns the
simulated (mock) client; the fallback is a total computation that raises
no error. -/
theorem build_bot_fallback_mock (api_key api_secret : Option String)
    (use_real testnet binance_available : Bool)
    (h : use_real = false ∨ api_key = none ∨ api_secret = none ∨ binance_available = false) :
    build_bot api_key api_secret use_real testnet binance_available = BotClient.mock := by
  unfold build_bot
  rcases h with h | h | h | h <;> subst h <;> simp [truthyStr]

/-- Witness for `build_bot_fallback_mock`: no credentials, flag unset. -/
theorem build_bot_fallback_mock_witness :
    build_bot none none false true true = BotClient.mock :=
  build_bot_fallback_mock none none false true true (Or.inl rfl)

/-- C9: with a quote balance of 10000 and mark price 68250.00,
`calculate_position_size` at risk 1 percent, stop-loss fraction 0.01 and
leverage 1 returns the quantity `100 / 682.50` truncated down to 6
fractional digits, which is `0.146520`, together with the price
`68250.00`. -/
theorem calc_size_example :
    calculate_position_size [("BTCUSDT", 68250)] [("USDT", 10000)] "BTCUSDT" 1 (1/100) 1
      = Except.ok (146520 / 1000000, 68250) ∧
    (146520 / 1000000 : ℚ) = round_dec (100 / (682.50 : ℚ)) 6 := by
  constructor
  · simp only [calculate_position_size, futures_mark_price, get_price, get_balance, getD,
      lookupBal]
    norm_num [round_dec, truncTowardZero]
  · norm_num [round_dec, truncTowardZero]

/-- C10: a call with a known symbol and a side that is neither `"BUY"` nor
`"SELL"` raises no error, returns `None` instead of an OrderResult, and
leaves the persisted balance sheet unchanged. -/
theorem invalid_side_ignored (prices : PriceTable) (bal : Balance) (symbol side : String)
    (q p : ℚ) (hp : get_price prices symbol = some p)
    (hb : side ≠ SIDE_BUY) (hs : side ≠ SIDE_SELL) :
    place_market_order prices bal symbol side q = (bal, Except.ok none) := by
  simp only [place_market_order, hp, if_neg hb, if_neg hs]

/-- Witness for `invalid_side_ignored` with side `"HOLD"`. -/
theorem invalid_side_ignored_witness :
    place_market_order [("BTCUSDT", 5)] [("USDT", 10)] "BTCUSDT" "HOLD" 1
      = ([("USDT", 10)], Except.ok none) :=
  invalid_side_ignored [("BTCUSDT", 5)] [("USDT", 10)] "BTCUSDT" "HOLD" 1 5
    rfl (by decide) (by decide)

/-- C2 counterexample: every quantity is accepted by the signature, and a
BUY of quantity `-1` on a balance sheet whose entries are all non-negative
drives the persisted base-asset balance to `-1 < 0`, refuting the claim
for arbitrary signature-accepted quantities. -/
theorem negative_quantity_breaks_nonneg :
    lookupBal (place_market_order [("BTCUSDT", 5)] [("USDT", 10), ("BTC", 0)]
        "BTCUSDT" SIDE_BUY (-1)).1 "BTC" = some (-1) ∧ (-1 : ℚ) < 0 := by
  constructor
  · have h1 : pyReplace "BTCUSDT" "USDT" "" = "BTC" := by decide
    simp only [place_market_order, get_price, h1, SIDE_BUY, lookupBal, setKey, getD]
    norm_num [round_dec, truncTowardZero, lookupBal, setKey, getD]
    simp +decide
    rw [show ((-100000000 : ℚ)) = ((-100000000 : ℤ) : ℚ) by norm_num, Int.ceil_intCast]
    norm_num
  · norm_num

/-- C2 amended: for every balance sheet whose asset quantities are all
non-negative, every price table whose prices are all non-negative, and
every call to `place_market_order` with a non-negative quantity (any
symbol and side), all asset quantities in the persisted balance sheet
remain non-negative. -/
theorem place_order_preserves_nonneg (prices : PriceTable) (bal : Balance)
    (symbol side : String) (q : ℚ)
    (hbal : ∀ kv ∈ bal, 0 ≤ kv.2) (hpr : ∀ kv ∈ prices, 0 ≤ kv.2) (hq : 0 ≤ q) :
    ∀ kv ∈ (place_market_order prices bal symbol side q).1, 0 ≤ kv.2 := by
  intro kv hkv
  rcases hgp : get_price prices symbol with _ | p
  · simp only [place_market_order, hgp] at hkv
    exact hbal kv hkv
  · have hp : 0 ≤ p := by
      obtain ⟨k, hk⟩ := get_price_mem prices symbol p hgp
      simpa using hpr _ hk
    by_cases hside : side = SIDE_BUY
    · subst hside
      rcases hu : lookupBal bal "USDT" with _ | u
      · simp only [place_market_order, hgp, hu, if_pos rfl, if_true] at hkv
        exact hbal kv hkv
      · by_cases hlt : u < q * p
        · simp only [place_market_order, hgp, hu, if_pos rfl, if_true, if_pos hlt] at hkv
          exact hbal kv hkv
        · simp only [place_market_order, hgp, hu, if_pos rfl, if_true, if_neg hlt] at hkv
          have hr1 : 0 ≤ round_dec (u - q * p) 6 :=
            round_dec_nonneg _ _ (sub_nonneg.mpr (not_lt.mp hlt))
          have hb1 : ∀ kv2 ∈ setKey bal "USDT" (round_dec (u - q * p) 6), 0 ≤ kv2.2 := by
            intro kv2 hkv2
            rcases mem_setKey _ _ _ _ hkv2 with h1 | h2
            · rw [h1]; exact hr1
            · exact hbal _ h2
          have hr2 : 0 ≤ round_dec
              (getD (setKey bal "USDT" (round_dec (u - q * p) 6)) (pyReplace symbol "USDT" "") 0
                + q) 8 :=
            round_dec_nonneg _ _ (add_nonneg (getD_nonneg _ _ hb1) hq)
          rcases mem_setKey _ _ _ _ hkv with h1 | h2
          · rw [h1]; exact hr2
          · exact hb1 _ h2
    · by_cases hsell : side = SIDE_SELL
      · subst hsell
        by_cases hlt : getD bal (pyReplace symbol "USDT" "") 0 < q
        · simp only [place_market_order, hgp, if_neg hside, if_pos rfl, if_true,
            if_pos hlt] at hkv
          exact hbal kv hkv
        · have hr1 : 0 ≤ round_dec (getD bal (pyReplace symbol "USDT" "") 0 - q) 8 :=
            round_dec_nonneg _ _ (sub_nonneg.mpr (not_lt.mp hlt))
          have hb1 : ∀ kv2 ∈ setKey bal (pyReplace symbol "USDT" "")
              (round_dec (getD bal (pyReplace symbol "USDT" "") 0 - q) 8), 0 ≤ kv2.2 := by
            intro kv2 hkv2
            rcases mem_setKey _ _ _ _ hkv2 with h1 | h2
            · rw [h1]; exact hr1
            · exact hbal _ h2
          rcases hu : lookupBal (setKey bal (pyReplace symbol "USDT" "")
              (round_dec (getD bal (pyReplace symbol "USDT" "") 0 - q) 8)) "USDT" with _ | u
          · simp only [place_market_order, hgp, if_neg hside, if_pos rfl, if_true, if_neg hlt,
              hu] at hkv
            exact hbal kv hkv
          · simp only [place_market_order, hgp, if_neg hside, if_pos rfl, if_true, if_neg hlt,
              hu] at hkv
            have hu0 : 0 ≤ u := by
              simpa using hb1 _ (lookupBal_mem _ _ _ hu)
            have hr2 : 0 ≤ round_dec (u + q * p) 6 :=
              round_dec_nonneg _ _ (add_nonneg hu0 (mul_nonneg hq hp))
            rcases mem_setKey _ _ _ _ hkv with h1 | h2
            · rw [h1]; exact hr2
            · exact hb1 _ h2
      · simp only [place_market_order, hgp, if_neg hside, if_neg hsell] at hkv
        exact hbal kv hkv

/-- Witness for `place_order_preserves_nonneg`: after buying 1 BTC at
price 5 from 10 USDT the base entry `("BTC", 1)` is non-negative. -/
theorem place_order_preserves_nonneg_witness :
    0 ≤ (("BTC", (1 : ℚ)) : String × ℚ).2 := by
  have hev : place_market_order [("BTCUSDT", 5)] [("USDT", 10), ("BTC", 0)] "BTCUSDT" SIDE_BUY 1
      = ([("USDT", 5), ("BTC", 1)], Except.ok (some ⟨"FILLED", "BUY", "BTCUSDT", 5, 1⟩)) := by
    have h1 : pyReplace "BTCUSDT" "USDT" "" = "BTC" := by decide
    simp only [place_market_order, get_price, h1, SIDE_BUY, lookupBal, setKey, getD]
    norm_num [round_dec, truncTowardZero, lookupBal, setKey, getD]
    simp +decide
  exact place_order_preserves_nonneg [("BTCUSDT", 5)] [("USDT", 10), ("BTC", 0)] "BTCUSDT"
    SIDE_BUY 1
    (by
      intro kv hkv
      simp only [List.mem_cons, List.not_mem_nil, or_false] at hkv
      rcases hkv with rfl | rfl <;> norm_num)
    (by
      intro kv hkv
      simp only [List.mem_cons, List.not_mem_nil, or_false] at hkv
      subst hkv
      norm_num)
    (by norm_num) ("BTC", 1)
    (by rw [hev]; exact List.mem_cons_of_mem _ (List.mem_singleton.mpr rfl))

/-- C5 counterexample: with a known symbol and `stop_loss_pct = 0` the
computed stop distance is zero and `calculate_position_size` fails with
the `ZeroDivisionError` that Python raises at the unguarded division —
not with any parameter-validation `ValueError`. -/
theorem zero_stop_distance_zerodiv :
    calculate_position_size [("BTCUSDT", 68250)] [("USDT", 10000)] "BTCUSDT" 1 0 1
      = Except.error Err.zeroDivisionError := by
  simp only [calculate_position_size, futures_mark_price, get_price, get_balance, getD,
    lookupBal]
  norm_num

/-- C5 amended: whenever the mark price times `stop_loss_pct` is zero, the
division in `calculate_position_size` is reached unguarded and the call
fails with Python's `ZeroDivisionError` (so no infinite or NaN quantity is
ever returned), rather than with a parameter-validation error. -/
theorem zero_stop_distance_raises_zerodiv (prices : PriceTable) (bal : Balance)
    (symbol : String) (r l p s : ℚ)
    (hp : get_price prices symbol = some p) (hs : p * s = 0) :
    calculate_position_size prices bal symbol r s l = Except.error Err.zeroDivisionError := by
  simp only [calculate_position_size, futures_mark_price, hp, if_pos hs]

/-- Witness for `zero_stop_distance_raises_zerodiv` at price 68250 and
stop fraction 0. -/
theorem zero_stop_distance_raises_zerodiv_witness :
    calculate_position_size [("BTCUSDT", 68250)] [("USDT", 10000)] "BTCUSDT" 2 0 3
      = Except.error Err.zeroDivisionError :=
  zero_stop_distance_raises_zerodiv [("BTCUSDT", 68250)] [("USDT", 10000)] "BTCUSDT"
    2 3 68250 0 rfl (by norm_num)

/-- Truncating `u - c` down to 6 digits and then truncating the restored
sum back down again lands in `[u - 10⁻⁶, u]` whenever `u` is an integer
multiple of `10⁻⁶` and `0 ≤ c ≤ u`. -/
theorem trunc6_roundtrip_bounds (k : ℤ) (c : ℚ) (hc : 0 ≤ c) (hcu : c ≤ (k : ℚ) / 10 ^ 6) :
    round_dec (round_dec ((k : ℚ) / 10 ^ 6 - c) 6 + c) 6 ≤ (k : ℚ) / 10 ^ 6 ∧
    (k : ℚ) / 10 ^ 6 - 1 / 10 ^ 6 ≤ round_dec (round_dec ((k : ℚ) / 10 ^ 6 - c) 6 + c) 6 := by
  have h1 : 0 ≤ (k : ℚ) / 10 ^ 6 - c := sub_nonneg.mpr hcu
  have hA : ((k : ℚ) / 10 ^ 6 - c) * 10 ^ 6 = (k : ℚ) + -(c * 10 ^ 6) := by
    field_simp
    ring
  have hinner : round_dec ((k : ℚ) / 10 ^ 6 - c) 6
      = ((k + ⌊-(c * 10 ^ 6)⌋ : ℤ) : ℚ) / 10 ^ 6 := by
    rw [round_dec_eq_floor _ _ h1, hA, Int.floor_int_add]
  have h2 : 0 ≤ round_dec ((k : ℚ) / 10 ^ 6 - c) 6 + c :=
    add_nonneg (round_dec_nonneg _ _ h1) hc
  have hB : (round_dec ((k : ℚ) / 10 ^ 6 - c) 6 + c) * 10 ^ 6
      = ((k + ⌊-(c * 10 ^ 6)⌋ : ℤ) : ℚ) + c * 10 ^ 6 := by
    rw [hinner]
    field_simp
  have houter : round_dec (round_dec ((k : ℚ) / 10 ^ 6 - c) 6 + c) 6
      = ((k + ⌊-(c * 10 ^ 6)⌋ + ⌊c * 10 ^ 6⌋ : ℤ) : ℚ) / 10 ^ 6 := by
    rw [round_dec_eq_floor _ _ h2, hB, Int.floor_int_add]
  have hfloorneg : ⌊-(c * 10 ^ 6)⌋ = -⌈c * 10 ^ 6⌉ := Int.floor_neg
  constructor
  · rw [houter]
    gcongr
    have h3 := Int.floor_le_ceil (c * 10 ^ 6)
    have h4 : ⌊-(c * 10 ^ 6)⌋ = -⌈c * 10 ^ 6⌉ := Int.floor_neg
    omega
  · rw [houter]
    have hk1 : ((k : ℚ) / 10 ^ 6 - 1 / 10 ^ 6) = ((k - 1 : ℤ) : ℚ) / 10 ^ 6 := by
      push_cast
      ring
    rw [hk1]
    gcongr
    have h3 := Int.ceil_le_floor_add_one (c * 10 ^ 6)
    have h4 : ⌊-(c * 10 ^ 6)⌋ = -⌈c * 10 ^ 6⌉ := Int.floor_neg
    omega

/-- C7 counterexample: starting from the balance sheet
`{USDT: 3/128 = 0.0234375, BTC: 0}` (all entries non-negative and exactly
representable in binary floating point, but the quote balance not a
multiple of `10⁻⁶`), buying `1/256 = 0.00390625` BTC at price 3 and
selling the same quantity back at the same price leaves a final quote
balance of `0.023436`, which is `0.0000015 > 10⁻⁶` below the original:
the round trip is not within one 6-digit truncation unit.  Every quantity
in this trace (`0.0234375`, `0.00390625`, the cost `0.01171875`, the
intermediate balances `0.011718` and `0.00390625`) is a dyadic rational
or lies well inside a truncation cell, so the float-based source follows
exactly the same path: the BUY persists `{USDT: 0.011718,
BTC: 0.00390625}`, the SELL succeeds and persists `{USDT: 0.023436,
BTC: 0.0}`. -/
theorem roundtrip_exceeds_one_unit :
    lookupBal (place_market_order [("BTCUSDT", 3)]
        (place_market_order [("BTCUSDT", 3)] [("USDT", 3/128), ("BTC", 0)]
          "BTCUSDT" SIDE_BUY (1/256)).1
        "BTCUSDT" SIDE_SELL (1/256)).1 "USDT" = some (23436/1000000) ∧
    (3/128 : ℚ) - 23436/1000000 > 1/10^6 := by
  constructor
  · have h1 : pyReplace "BTCUSDT" "USDT" "" = "BTC" := by decide
    have hbuy : place_market_order [("BTCUSDT", 3)] [("USDT", 3/128), ("BTC", 0)]
        "BTCUSDT" SIDE_BUY (1/256)
        = ([("USDT", 11718/1000000), ("BTC", 1/256)],
           Except.ok (some ⟨"FILLED", "BUY", "BTCUSDT", 3, 1/256⟩)) := by
      simp only [place_market_order, get_price, h1, SIDE_BUY, lookupBal, setKey, getD]
      norm_num [round_dec, truncTowardZero, lookupBal, setKey, getD]
      simp +decide
      norm_num
    rw [hbuy]
    simp only [place_market_order, get_price, h1, SIDE_BUY, SIDE_SELL, lookupBal, setKey, getD]
    norm_num [round_dec, truncTowardZero, lookupBal, setKey, getD]
    simp +decide
    simp [lookupBal]
  · norm_num

/-- C7 amended: starting from a balance sheet whose quote balance `u` is an
integer multiple of `10⁻⁶` (as every balance the engine itself persists
is), a successful BUY of quantity `q` at price `p` followed by a
successful SELL of the same quantity at the same unchanged price yields a
final quote balance `u2` with `u - 10⁻⁶ ≤ u2 ≤ u`: never higher than the
original and within one 6-digit truncation unit of it.  (For an arbitrary
initial quote balance the deficit can reach two truncation units, as the
counterexample shows.) -/
theorem buy_sell_roundtrip_quote_bounds (prices : PriceTable) (bal : Balance) (symbol : String)
    (q p u : ℚ) (k : ℤ)
    (hprice : get_price prices symbol = some p)
    (husdt : lookupBal bal "USDT" = some u)
    (hbase : pyReplace symbol "USDT" "" ≠ "USDT")
    (hu6 : u = (k : ℚ) / 10 ^ 6)
    (hp0 : 0 ≤ p) (hq0 : 0 ≤ q)
    (hfunds : q * p ≤ u)
    (hsell : q ≤ round_dec (getD bal (pyReplace symbol "USDT" "") 0 + q) 8) :
    ∃ u2,
      lookupBal (place_market_order prices
          (place_market_order prices bal symbol SIDE_BUY q).1 symbol SIDE_SELL q).1 "USDT"
        = some u2 ∧ u2 ≤ u ∧ u - 1 / 10 ^ 6 ≤ u2 := by
  have hnl : ¬ (u < q * p) := not_lt.mpr hfunds
  have hg : getD (setKey bal "USDT" (round_dec (u - q * p) 6)) (pyReplace symbol "USDT" "") 0
      = getD bal (pyReplace symbol "USDT" "") 0 := by
    unfold getD
    rw [lookupBal_setKey_ne _ _ _ _ (Ne.symm hbase)]
  have hbuy : (place_market_order prices bal symbol SIDE_BUY q).1
      = setKey (setKey bal "USDT" (round_dec (u - q * p) 6)) (pyReplace symbol "USDT" "")
          (round_dec (getD bal (pyReplace symbol "USDT" "") 0 + q) 8) := by
    simp only [place_market_order, hprice, husdt, if_pos rfl, if_true, if_neg hnl, hg]
  have hgd1 : getD (setKey (setKey bal "USDT" (round_dec (u - q * p) 6))
        (pyReplace symbol "USDT" "") (round_dec (getD bal (pyReplace symbol "USDT" "") 0 + q) 8))
      (pyReplace symbol "USDT" "") 0
      = round_dec (getD bal (pyReplace symbol "USDT" "") 0 + q) 8 := by
    unfold getD
    rw [lookupBal_setKey_self]
    rfl
  have hnosell : ¬ (getD (setKey (setKey bal "USDT" (round_dec (u - q * p) 6))
        (pyReplace symbol "USDT" "") (round_dec (getD bal (pyReplace symbol "USDT" "") 0 + q) 8))
      (pyReplace symbol "USDT" "") 0 < q) := by
    rw [hgd1]
    exact not_lt.mpr hsell
  have hne : ¬ (SIDE_SELL = SIDE_BUY) := by decide
  refine ⟨round_dec (round_dec (u - q * p) 6 + q * p) 6, ?_, ?_, ?_⟩
  · rw [hbuy]
    simp only [place_market_order, hprice, if_neg hne, if_pos rfl, if_true, if_neg hnosell]
    rw [lookupBal_setKey_ne _ _ _ _ hbase, lookupBal_setKey_ne _ _ _ _ hbase,
      lookupBal_setKey_self]
    dsimp only
    rw [lookupBal_setKey_self]
  · have h := (trunc6_roundtrip_bounds k (q * p) (mul_nonneg hq0 hp0) (hu6 ▸ hfunds)).1
    rw [hu6]
    exact h
  · have h := (trunc6_roundtrip_bounds k (q * p) (mul_nonneg hq0 hp0) (hu6 ▸ hfunds)).2
    rw [hu6]
    exact h

/-- Witness for `buy_sell_roundtrip_quote_bounds`: buying and re-selling
0.25 BTC at price 2 starting from 1 USDT keeps the final quote balance in
`[1 - 10⁻⁶, 1]`. -/
theorem buy_sell_roundtrip_quote_bounds_witness :
    getD (place_market_order [("BTCUSDT", 2)]
        (place_market_order [("BTCUSDT", 2)] [("USDT", 1), ("BTC", 0)] "BTCUSDT" SIDE_BUY (1/4)).1
        "BTCUSDT" SIDE_SELL (1/4)).1 "USDT" 0 ≤ 1 ∧
    (1 : ℚ) - 1/10^6 ≤ getD (place_market_order [("BTCUSDT", 2)]
        (place_market_order [("BTCUSDT", 2)] [("USDT", 1), ("BTC", 0)] "BTCUSDT" SIDE_BUY (1/4)).1
        "BTCUSDT" SIDE_SELL (1/4)).1 "USDT" 0 := by
  obtain ⟨u2, h1, h2, h3⟩ := buy_sell_roundtrip_quote_bounds [("BTCUSDT", 2)]
    [("USDT", 1), ("BTC", 0)] "BTCUSDT" (1/4) 2 1 1000000 rfl rfl (by decide)
    (by norm_num) (by norm_num) (by norm_num) (by norm_num)
    (by
      have h : pyReplace "BTCUSDT" "USDT" "" = "BTC" := by decide
      rw [h]
      norm_num [getD, lookupBal, round_dec, truncTowardZero]
      simp +decide
      norm_num)
  constructor
  · unfold getD
    rw [h1]
    exact h2
  · unfold getD
    rw [h1]
    exact h3
